import Mathlib

/-!
Verification of the dynamic form-assembly engine of `survey/forms.py`
(`ResponseForm`): multi-select body encoding/decoding, field-name wire
format, save semantics, seeded shuffling, step resolution and choice
synthesis.  Python strings are modelled as `List Char`; fallible Python
code (exceptions) is modelled with `Option`.
-/

set_option autoImplicit false

namespace SurveyApp

/-- The single-quote character, used as the delimiter of the persisted
multi-select encoding (`unformated_choice.split("'")[1]` in
`get_question_initial`). -/
def squote : Char := Char.ofNat 39

/-- Python whitespace as used by `str.strip()` and the regex class `\s`:
space, tab, newline, carriage return, vertical tab, form feed. -/
def isPySpace (c : Char) : Bool :=
  c = ' ' || c = '\t' || c = '\n' || c = '\r' || c = Char.ofNat 11 || c = Char.ofNat 12

/-- Python `str.strip()`: remove leading and trailing whitespace. -/
def pyStrip (l : List Char) : List Char :=
  ((l.dropWhile isPySpace).reverse.dropWhile isPySpace).reverse

/-- Python `s.split(sep)` for a one-character separator `sep`: splits on
every occurrence, keeping empty pieces, and returns `[s]` when the
separator does not occur (never an empty list of pieces). -/
def splitOnChar (sep : Char) : List Char → List (List Char)
  | [] => [[]]
  | c :: rest =>
    let r := splitOnChar sep rest
    if c = sep then [] :: r
    else
      match r with
      | [] => [[c]]
      | h :: t => (c :: h) :: t

/-- Join pieces with a one-character separator (inverse of `splitOnChar`
on separator-free pieces). -/
def joinWith (sep : Char) : List (List Char) → List Char
  | [] => []
  | [x] => x
  | x :: y :: rest => x ++ sep :: joinWith sep (y :: rest)

/-- Python's `enumerate` with a starting index. -/
def enumFromL {α : Type} (n : Nat) : List α → List (Nat × α)
  | [] => []
  | a :: as => (n, a) :: enumFromL (n + 1) as

/-- Lookup in an association list by key (Python `dict.get`). -/
def assocLookup {κ β : Type} [BEq κ] (l : List (κ × β)) (k : κ) : Option β :=
  (l.find? (fun p => p.1 == k)).map (fun p => p.2)

/-- A Python-style accumulating loop over a list whose body may raise:
apply `f` to each element in order, collecting the results, and abort
with `none` at the first failure. -/
def mapMOpt {α β : Type} (f : α → Option β) : List α → Option (List β)
  | [] => some []
  | x :: xs =>
    match f x, mapMOpt f xs with
    | some y, some ys => some (y :: ys)
    | _, _ => none

/-- The decimal digit character for `d < 10`. -/
def digitChar : Nat → Char
  | 0 => '0' | 1 => '1' | 2 => '2' | 3 => '3' | 4 => '4'
  | 5 => '5' | 6 => '6' | 7 => '7' | 8 => '8' | _ => '9'

/-- Accumulator-style decimal rendering of a positive natural number,
fuelled (each step divides by 10, so fuel `n` suffices for `n`). -/
def natReprAux : Nat → Nat → List Char → List Char
  | 0, _, acc => acc
  | _ + 1, 0, acc => acc
  | fuel + 1, n + 1, acc =>
    natReprAux fuel ((n + 1) / 10) (digitChar ((n + 1) % 10) :: acc)

/-- Python `str(n)` for a natural number: its decimal digits. -/
def natRepr (n : Nat) : List Char :=
  if n = 0 then ['0'] else natReprAux n n []

/-- Python `int(s)` restricted to plain digit strings: `some` of the
value on a non-empty all-digit string, `none` (a `ValueError`)
otherwise. -/
def parseNat (l : List Char) : Option Nat :=
  if l ≠ [] ∧ l.all Char.isDigit then
    some (l.foldl (fun a c => 10 * a + (c.toNat - 48)) 0)
  else none

/-- A word character of the regex `\w` after the ASCII projection and
lowering done by `django.utils.text.slugify`: ASCII letters, digits and
underscore. -/
def isWordChar (c : Char) : Bool :=
  c.isAlphanum || c = '_'

/-- The regex substitution `re.sub(r"[-\s]+", "-", value)`, fuelled
(each step shortens the list, so fuel `l.length` suffices): replace
every maximal run of hyphens and whitespace with a single hyphen. -/
def collapseDashRunsAux : Nat → List Char → List Char
  | 0, _ => []
  | _, [] => []
  | fuel + 1, c :: rest =>
    if isPySpace c || c = '-' then
      '-' :: collapseDashRunsAux fuel (rest.dropWhile (fun d => isPySpace d || d = '-'))
    else c :: collapseDashRunsAux fuel rest

/-- The regex substitution `re.sub(r"[-\s]+", "-", value)`. -/
def collapseDashRuns (l : List Char) : List Char :=
  collapseDashRunsAux l.length l

/-- `django.utils.text.slugify(value, allow_unicode=False)` (Django 3.1):
NFKD-normalize and drop non-ASCII (modelled here as dropping non-ASCII
characters, the identity on ASCII input), lowercase, delete characters
that are not word characters, whitespace or hyphens, strip surrounding
whitespace, then collapse runs of hyphens/whitespace to one hyphen. -/
def slugify (s : List Char) : List Char :=
  let ascii := s.filter (fun c => c.toNat < 128)
  let lowered := ascii.map Char.toLower
  let kept := lowered.filter (fun c => isWordChar c || isPySpace c || c = '-')
  collapseDashRuns (pyStrip kept)

/-- Modelled from the spec: `settings.CHOICES_SEPARATOR`, the separator
of the persisted multi-select list encoding, is not part of the sources
under `src/`; the spec describes the body as a "separator-joined"
string and the stock configuration uses a comma. -/
def choicesSeparator : Char := ','

/-- The multi-select branch of `ResponseForm.get_question_initial`
(lines 199–211 of `forms.py`): decode a persisted multi-select `body`
into the list of slug-cased tokens.  `"[]"` decodes to the empty list;
a body containing both brackets is stripped of its first and last
characters, whitespace-stripped, split on `CHOICES_SEPARATOR`, and each
piece contributes `slugify` of the text between its first two single
quotes (`none` models the `IndexError` raised when a piece has no
quote); any other body decodes to the one-element list of its slug. -/
def decodeMulti (body : List Char) : Option (List (List Char)) :=
  if body = ['[', ']'] then some []
  else if '[' ∈ body ∧ ']' ∈ body then
    mapMOpt (fun uc => ((splitOnChar squote uc).get? 1).map slugify)
      (splitOnChar choicesSeparator (pyStrip ((body.drop 1).dropLast)))
  else some [slugify body]

/-- One token of the persisted multi-select encoding: the token wrapped
in single quotes. -/
def quoteTok (t : List Char) : List Char :=
  squote :: (t ++ [squote])

/-- Modelled from the spec: the encoder that produces the persisted
multi-select body is not under `src/` (it is Python's textual rendering
of the submitted list, written by `Answer.body = field_value`); per §6
the body is "a bracketed, single-quote-delimited, separator-joined
string" of the tokens. -/
def encodeMulti (tokens : List (List Char)) : List Char :=
  '[' :: joinWith choicesSeparator (tokens.map quoteTok) ++ [']']

/-- The declared type of an `AnswerGroup` (the constants `TEXT`,
`SHORT_TEXT`, `SELECT`, `SELECT_IMAGE`, `SELECT_MULTIPLE`, `RADIO`,
`INTEGER`, `FLOAT`, `DATE` of `survey.models.AnswerGroup`). -/
inductive AGType where
  | text
  | short_text
  | select
  | select_image
  | select_multiple
  | radio
  | integer
  | float
  | date
  deriving DecidableEq, Repr

/-- `Survey.display_method`: `ALL_IN_ONE`, `BY_CATEGORY` or
`BY_QUESTION`. -/
inductive DisplayMethod where
  | all_in_one
  | by_category
  | by_question
  deriving DecidableEq, Repr

/-- An `AnswerGroup` row: identifier (`pk`), declared type, declared
choice list (value/label pairs, the result of `get_choices()`), name,
and the prefix/suffix display strings (named `prefixText`/`suffixText`
here). -/
structure AnswerGroup where
  id : Nat
  type : AGType
  choices : List (List Char × List Char)
  name : List Char
  prefixText : List Char
  suffixText : List Char
  deriving DecidableEq, Repr

/-- A `Question` row: identifier (`pk`), text, required flag, optional
category (by category id), optional explicit order, and its answer
groups. -/
structure Question where
  id : Nat
  text : List Char
  required : Bool
  category : Option Nat
  order : Option Int
  answer_groups : List AnswerGroup
  deriving DecidableEq, Repr

/-- A `Category` row. -/
structure Category where
  id : Nat
  name : List Char
  description : List Char
  deriving DecidableEq, Repr

/-- A `Survey` row with its questions and categories. -/
structure Survey where
  id : Nat
  display_method : DisplayMethod
  editable_answers : Bool
  questions : List Question
  categories : List Category
  deriving DecidableEq, Repr

/-- A `Response` row. -/
structure Response where
  id : Nat
  survey : Nat
  user : Option Nat
  interview_uuid : List Char
  random_seed : Int
  extra : List Char
  deriving DecidableEq, Repr

/-- An `Answer` row: owning question, answer group and response (by id;
`response` is an `Option` so that the queryset `filter(response=None)`
of `_get_preexisting_answers` is expressible), and the string-encoded
body. -/
structure Answer where
  question : Nat
  answer_group : Nat
  response : Option Nat
  body : List Char
  deriving DecidableEq, Repr

/-- The ordering key of Django's `order_by("order", "id")` on questions
under SQLite semantics (`NULL` orders first): compare by explicit
order, null first, then by id. -/
def questionLe (a b : Question) : Bool :=
  match a.order, b.order with
  | none, none => a.id ≤ b.id
  | none, some _ => true
  | some _, none => false
  | some x, some y => x < y || (x = y && a.id ≤ b.id)

/-- Insert into a sorted list (implementation of `order_by`). -/
def insertLe {α : Type} (le : α → α → Bool) (a : α) : List α → List α
  | [] => [a]
  | b :: bs => if le a b then a :: b :: bs else b :: insertLe le a bs

/-- Insertion sort (implementation of `order_by`). -/
def sortLe {α : Type} (le : α → α → Bool) : List α → List α
  | [] => []
  | a :: as => insertLe le a (sortLe le as)

/-- `self.qs_with_no_cat` (line 62 of `forms.py`): the survey's
questions with no category, ordered by explicit order then id. -/
def qsWithNoCat (s : Survey) : List Question :=
  sortLe questionLe (s.questions.filter (fun q => q.category = none))

/-- Modelled from the spec: `Survey.non_empty_categories()` lives in
`survey/models.py`, which is not under `src/`; per §4.1 it is the
survey's categories that have at least one question, in a stable
order. -/
def nonEmptyCategories (s : Survey) : List Category :=
  s.categories.filter (fun c => s.questions.any (fun q => q.category = some c.id))

/-- Modelled from the spec: `Survey.is_all_in_one_page()` lives in
`survey/models.py`, which is not under `src/`; per the glossary it
holds exactly when the display mode is `ALL_IN_ONE`. -/
def isAllInOnePage (s : Survey) : Bool :=
  s.display_method = DisplayMethod.all_in_one

/-- `self.steps_count` as computed in `ResponseForm.__init__` (lines
65–68): in `BY_CATEGORY` mode the number of non-empty categories plus
one when uncategorized questions exist, otherwise the total number of
the survey's questions. -/
def stepsCount (s : Survey) : Nat :=
  if s.display_method = DisplayMethod.by_category then
    (nonEmptyCategories s).length + (if qsWithNoCat s ≠ [] then 1 else 0)
  else
    s.questions.length

/-- `ResponseForm.has_next_step` (lines 318–322): `none` models the
`TypeError` Python raises when `self.step` is `None` and is compared
against the integer `self.steps_count - 1`. -/
def hasNextStep (s : Survey) (step : Option Int) : Option Bool :=
  if isAllInOnePage s then some false
  else
    match step with
    | none => none
    | some st => if st < (stepsCount s : Int) - 1 then some true else some false

/-- Modelled from the spec: Python's `random` module is not under
`src/`.  §4.2 only requires a deterministic seeded pseudo-random
generator, so the global generator state is modelled as an `Int`
evolved by a linear congruential step. -/
def lcgNext (g : Int) : Int :=
  (g * 1103515245 + 12345) % 2147483648

/-- Draw a number below `n` from the generator, returning the draw and
the advanced generator state. -/
def randBelow (g : Int) (n : Nat) : Nat × Int :=
  let g' := lcgNext g
  (g'.toNat % n, g')

/-- Modelled from the spec: `random.seed(s)` resets the global generator
state to a value determined by the seed alone — §4.2: "a seeded
pseudo-random generator reset immediately before each shuffle call".
The prior state `_g` is discarded. -/
def randomSeedReset (_g : Int) (s : Int) : Int :=
  s % 2147483648

/-- Swap the elements at positions `i` and `j` (no-op when either index
is out of range). -/
def listSwap {α : Type} (l : List α) (i j : Nat) : List α :=
  match l.get? i, l.get? j with
  | some a, some b => (l.set i b).set j a
  | _, _ => l

/-- The Fisher–Yates loop of `random.shuffle`: for `i` from `len - 1`
down to `1`, draw `j` below `i + 1` and swap positions `i` and `j`. -/
def fyAux {α : Type} (l : List α) (g : Int) : Nat → List α × Int
  | 0 => (l, g)
  | i + 1 =>
    let jg := randBelow g (i + 2)
    fyAux (listSwap l (i + 1) jg.1) jg.2 i

/-- `random.shuffle(l)` starting from generator state `g`. -/
def pyShuffle {α : Type} (l : List α) (g : Int) : List α × Int :=
  fyAux l g (l.length - 1)

/-- The seed-then-shuffle sequence of `ResponseForm.add_questions`
(lines 96–99 and 104–108): from global generator state `g`, execute
`random.seed(seed)` and then `random.shuffle(l)`. -/
def seededShuffle {α : Type} (g : Int) (seed : Int) (l : List α) : List α × Int :=
  pyShuffle l (randomSeedReset g seed)

/-- `self.randomize_questions` (line 63): the survey's questions with no
explicit order; its truthiness decides whether shuffling happens. -/
def randomizeQuestions (s : Survey) : List Question :=
  s.questions.filter (fun q => q.order = none)

/-- Python list indexing `l[i]`: negative indices count from the end,
out-of-range indices raise `IndexError` (`none`). -/
def pyIndex {α : Type} (l : List α) (i : Int) : Option α :=
  if 0 ≤ i then l.get? i.toNat
  else
    let j := (l.length : Int) + i
    if 0 ≤ j then l.get? j.toNat else none

/-- The full question list of the else branch of `add_questions` (lines
104–108): all of the survey's questions ordered by
`order_by("order", "id")`, then seeded-shuffled when any question lacks
an explicit order. -/
def fullQuestionList (g seed : Int) (s : Survey) : List Question :=
  let qs0 := sortLe questionLe s.questions
  if randomizeQuestions s ≠ [] then (seededShuffle g seed qs0).1 else qs0

/-- The question-selection logic of `ResponseForm.add_questions` (lines
86–114): the ordered (and, when any question lacks an explicit order,
seeded-shuffled) list of questions that `add_question` is called on,
given the global generator state `g`, the form's `random_seed`, the
survey and the form's `step`.  `none` models the `IndexError` of
`self.categories[self.step]` on an invalid category index. -/
def addQuestionsSelected (g : Int) (seed : Int) (s : Survey) (step : Option Int) :
    Option (List Question) :=
  if s.display_method = DisplayMethod.by_category ∧ step ≠ none then
    match step with
    | none => none
    | some st =>
      if st = ((nonEmptyCategories s).length : Int) then
        let qs := qsWithNoCat s
        some (if randomizeQuestions s ≠ [] then (seededShuffle g seed qs).1 else qs)
      else
        match pyIndex (nonEmptyCategories s) st with
        | none => none
        | some cat =>
          let qs := sortLe questionLe (s.questions.filter (fun q => q.category = some cat.id))
          some (if randomizeQuestions s ≠ [] then (seededShuffle g seed qs).1 else qs)
  else
    let qs := fullQuestionList g seed s
    some (((enumFromL 0 qs).filter (fun p =>
      !(decide (s.display_method = DisplayMethod.by_question) &&
        (match step with
         | none => false
         | some st => decide ((p.1 : Int) ≠ st))))).map (fun p => p.2))

/-- The empty "please choose" option `("", "-------------")` prepended
to dropdown choice lists (line 249 of `forms.py`). -/
def emptyOption : List Char × List Char :=
  ([], "-------------".toList)

/-- The per-answer-group computation of
`ResponseForm.get_question_choices` (lines 230–252): `none` when the
group's type is scalar (`TEXT`, `SHORT_TEXT`, `INTEGER`, `FLOAT`,
`DATE`) or when its computed choice list is empty — the group then gets
no entry in `qchoices`; otherwise the group's declared choices
(`get_choices()` of `survey/models.py`, modelled as the `choices`
field), with one empty option prepended first exactly when the type is
`SELECT` or `SELECT_IMAGE`. -/
def choicesForGroup (ag : AnswerGroup) : Option (List (List Char × List Char)) :=
  if ag.type = AGType.text ∨ ag.type = AGType.short_text ∨ ag.type = AGType.integer ∨
      ag.type = AGType.float ∨ ag.type = AGType.date then
    none
  else
    let choices :=
      if ag.type = AGType.select ∨ ag.type = AGType.select_image then
        emptyOption :: ag.choices
      else ag.choices
    if choices ≠ [] then some choices else none

/-- `ResponseForm.get_question_choices`: the mapping (as an association
list in iteration order) from answer-group id to the choice list used
for its synthesized field. -/
def getQuestionChoices (q : Question) : List (Nat × List (List Char × List Char)) :=
  q.answer_groups.foldr
    (fun ag acc =>
      match choicesForGroup ag with
      | some cs => (ag.id, cs) :: acc
      | none => acc) []

/-- `"question_{}".format(question.pk)` (line 312 / line 217), the key
used both for grouping a question's fields and for looking up the
question in resubmission data. -/
def questionKey (q : Nat) : List Char :=
  "question_".toList ++ natRepr q

/-- `"question_{}_{}".format(question.pk, ag.pk)` (line 311): the flat
field identifier synthesized by `ResponseForm.add_question`. -/
def fieldName (q g : Nat) : List Char :=
  "question_".toList ++ natRepr q ++ '_' :: natRepr g

/-- A value recovered from a stored Answer for one answer group: either
the verbatim body string or, for multi-select groups, the decoded list
of slug-cased tokens. -/
inductive DbVal where
  | scalar (body : List Char)
  | multi (tokens : List (List Char))
  deriving DecidableEq, Repr

/-- A stored answer as consumed by `get_question_initial`: its owning
group's declared type (`answer.answer_group.type`) together with the
body string. -/
structure AnswerView where
  agType : AGType
  body : List Char
  deriving DecidableEq, Repr

/-- The result of `ResponseForm.get_question_initial`: either the dict
built from the stored answers, or — when truthy resubmission data was
supplied — the raw `data.get("question_<pk>")` value (`none` inside
`fromData` models an absent key, Python `None`). -/
inductive QInitial (β : Type) where
  | dbMap (m : List (Nat × DbVal))
  | fromData (v : Option β)
  deriving DecidableEq, Repr

/-- The database half of `get_question_initial` (lines 194–213): build
the per-group initial dict from the stored answers of this question,
decoding multi-select bodies; `none` models the `IndexError` of the
decoder on a malformed body. -/
def buildInitial (qaMap : List (Nat × AnswerView)) : Option (List (Nat × DbVal)) :=
  mapMOpt (fun p =>
    if p.2.agType = AGType.select_multiple then
      (decodeMulti p.2.body).map (fun ts => (p.1, DbVal.multi ts))
    else some (p.1, DbVal.scalar p.2.body)) qaMap

/-- `ResponseForm.get_question_initial` (lines 188–218): build the
initial dict from the stored answers, then — if the caller supplied
truthy `data` — replace it wholesale with `data.get("question_<pk>")`.
`qaMap` is the memoized `_get_preexisting_answer(question, None)` dict
for this question; `data = none` and `data = some []` are the falsy
cases of `if data:`. -/
def getQuestionInitial {β : Type} (qaMap : List (Nat × AnswerView))
    (data : Option (List (List Char × β))) (qpk : Nat) : Option (QInitial β) :=
  match buildInitial qaMap with
  | none => none
  | some dbInit =>
    match data with
    | some d =>
      if d.isEmpty then some (QInitial.dbMap dbInit)
      else some (QInitial.fromData (assocLookup d (questionKey qpk)))
    | none => some (QInitial.dbMap dbInit)

/-- `field_name.startswith("question_")` (line 369). -/
def startsWithQuestion (name : List Char) : Bool :=
  "question_".toList.isPrefixOf name

/-- The id extraction of `ResponseForm.save` (lines 373–375):
`parts = field_name.split("_"); q_id = int(parts[1]);
ag_id = int(parts[2])`.  `none` models the `IndexError` or `ValueError`
raised on a name that does not follow the naming contract. -/
def parseFieldName (name : List Char) : Option (Nat × Nat) :=
  let parts := splitOnChar '_' name
  match parts.get? 1, parts.get? 2 with
  | some p1, some p2 =>
    match parseNat p1, parseNat p2 with
    | some q, some g => some (q, g)
    | _, _ => none
  | _, _ => none

/-- The schema tables consulted by `save` (`Question.objects` and
`AnswerGroup.objects`). -/
structure Db where
  questions : List Question
  answer_groups : List AnswerGroup
  deriving Repr

/-- `Question.objects.get(pk=i)`: `none` models `DoesNotExist`. -/
def Db.getQuestion (db : Db) (i : Nat) : Option Question :=
  db.questions.find? (fun q => q.id == i)

/-- `AnswerGroup.objects.get(pk=i)`: `none` models `DoesNotExist`. -/
def Db.getAnswerGroup (db : Db) (i : Nat) : Option AnswerGroup :=
  db.answer_groups.find? (fun ag => ag.id == i)

/-- `_get_preexisting_answer(question, answer_group)` through the
memoized answers dict (lines 150–186): the stored answer of the
preexisting response for the given question and answer-group ids. -/
def findStoredAnswer (stored : List Answer) (q g : Nat) : Option Answer :=
  stored.find? (fun a => a.question == q && a.answer_group == g)

/-- One iteration of the answer-creation loop of `ResponseForm.save`
(lines 368–389) on a validated `(field_name, field_value)` pair:
`some none` when the name does not start with `question_` (no Answer is
touched); otherwise parse the ids from the name, look up question and
answer group, recover the preexisting Answer or create a fresh one, and
set its body to the raw submitted value, linked to response `respId`.
The outer `none` models the exceptions of this block: a malformed name,
an unknown id, or the unpacking `field_value.split(":", 1)` of a
`SELECT_IMAGE` value containing no colon. -/
def processField (db : Db) (stored : List Answer) (respId : Nat)
    (name value : List Char) : Option (Option Answer) :=
  if startsWithQuestion name then
    match parseFieldName name with
    | none => none
    | some qg =>
      match db.getQuestion qg.1, db.getAnswerGroup qg.2 with
      | some _, some ag =>
        if ag.type = AGType.select_image ∧ ':' ∉ value then none
        else
          let answer :=
            match findStoredAnswer stored qg.1 qg.2 with
            | some a => a
            | none => { question := qg.1, answer_group := qg.2, response := none, body := [] }
          some (some { answer with body := value, response := some respId })
      | _, _ => none
  else some none

/-- The answer-creation loop of `ResponseForm.save` over the validated
`cleaned_data`, collecting the saved Answers in submission order. -/
def saveLoop (db : Db) (stored : List Answer) (respId : Nat) :
    List (List Char × List Char) → Option (List Answer)
  | [] => some []
  | (name, value) :: rest =>
    match processField db stored respId name value with
    | none => none
    | some none => saveLoop db stored respId rest
    | some (some a) => (saveLoop db stored respId rest).map (fun l => a :: l)

/-- The persisted Response and Answer tables. -/
structure DbState where
  responses : List Response
  answers : List Answer
  deriving Repr

/-- `ResponseForm._get_preexisting_response` (lines 128–148): `none` for
an anonymous user or when no Response exists for this user+survey
pair. -/
def getPreexistingResponse (authenticated : Bool) (userId surveyId : Nat)
    (responses : List Response) : Option Response :=
  if authenticated then
    responses.find? (fun r => r.user == some userId && r.survey == surveyId)
  else none

/-- `response.save()`: replace the row with the same pk, or insert. -/
def upsertResponse (r : Response) (rs : List Response) : List Response :=
  if rs.any (fun x => x.id == r.id) then
    rs.map (fun x => if x.id == r.id then r else x)
  else rs ++ [r]

/-- `answer.save()`: replace the row for the same
(question, answer group, response) key, or insert. -/
def upsertAnswer (a : Answer) (l : List Answer) : List Answer :=
  if l.any (fun x => x.question == a.question && x.answer_group == a.answer_group &&
      x.response == a.response) then
    l.map (fun x =>
      if x.question == a.question && x.answer_group == a.answer_group &&
          x.response == a.response then a else x)
  else l ++ [a]

/-- The form attributes consumed by `save`. -/
structure FormCtx where
  survey : Survey
  authenticated : Bool
  userId : Nat
  uuidHex : List Char
  randomSeed : Int
  extra : List Char

/-- `ResponseForm.save` (lines 348–391): recover the preexisting
Response; when the survey's answers are not editable and one exists,
return the `None` no-op result with the store untouched.  Otherwise
stamp (or create, with the store-assigned pk `freshRespId`) the
Response, persist it, run the answer loop over `cleaned_data` and
persist each produced Answer.  The outer `none` models an exception
escaping the answer loop (the partially-written store is then not
returned, matching Python where the caller sees only the exception). -/
def formSave (ctx : FormCtx) (db : Db) (freshRespId : Nat)
    (cleaned : List (List Char × List Char)) (st : DbState) :
    Option (Option Response × DbState) :=
  let resp? := getPreexistingResponse ctx.authenticated ctx.userId ctx.survey.id st.responses
  if ctx.survey.editable_answers = false ∧ resp? ≠ none then some (none, st)
  else
    let r0 : Response :=
      match resp? with
      | some r => r
      | none =>
        { id := freshRespId, survey := 0, user := none, interview_uuid := [],
          random_seed := 0, extra := [] }
    let r1 : Response :=
      { r0 with
          survey := ctx.survey.id
          interview_uuid := ctx.uuidHex
          random_seed := ctx.randomSeed
          user := if ctx.authenticated then some ctx.userId else r0.user
          extra := ctx.extra }
    let stored := st.answers.filter (fun a => a.response == resp?.map (fun r => r.id))
    match saveLoop db stored r1.id cleaned with
    | none => none
    | some saved =>
      some (some r1,
        { responses := upsertResponse r1 st.responses,
          answers := saved.foldl (fun acc a => upsertAnswer a acc) st.answers })

/-! Concrete fixtures used by the witness and counterexample theorems. -/

/-- A short-text answer group with pk 42. -/
def agShortText : AnswerGroup :=
  ⟨42, AGType.short_text, [], [], [], []⟩

/-- A question with pk 17 owning `agShortText`. -/
def q17 : Question :=
  ⟨17, [], true, none, some 0, [agShortText]⟩

/-- Schema tables holding `q17` and `agShortText`. -/
def dbW : Db :=
  ⟨[q17], [agShortText]⟩

/-- A plain question with the given pk and category, explicit order 0
and no answer groups. -/
def mkPlainQ (i : Nat) (c : Option Nat) : Question :=
  ⟨i, [], true, c, some 0, []⟩

/-- Three categories with pks 1, 2, 3. -/
def threeCats : List Category :=
  [⟨1, ['a'], []⟩, ⟨2, ['b'], []⟩, ⟨3, ['c'], []⟩]

/-- A `BY_CATEGORY` survey with three non-empty categories and one
uncategorized question. -/
def surveyCatUncat : Survey :=
  ⟨1, DisplayMethod.by_category, true,
   [mkPlainQ 1 (some 1), mkPlainQ 2 (some 2), mkPlainQ 3 (some 3), mkPlainQ 4 none],
   threeCats⟩

/-- A `BY_CATEGORY` survey with three non-empty categories and no
uncategorized question. -/
def surveyCatOnly : Survey :=
  ⟨1, DisplayMethod.by_category, true,
   [mkPlainQ 1 (some 1), mkPlainQ 2 (some 2), mkPlainQ 3 (some 3)],
   threeCats⟩

/-- A `BY_QUESTION` survey with five questions, all explicitly
ordered. -/
def surveyFiveQ : Survey :=
  ⟨2, DisplayMethod.by_question, true,
   [mkPlainQ 1 none, mkPlainQ 2 none, mkPlainQ 3 none, mkPlainQ 4 none, mkPlainQ 5 none],
   []⟩

/-- An `ALL_IN_ONE` survey. -/
def surveyAllInOne : Survey :=
  ⟨3, DisplayMethod.all_in_one, true, [mkPlainQ 1 none], []⟩

/-- A survey whose answers are locked (`editable_answers = False`). -/
def lockedSurvey : Survey :=
  ⟨4, DisplayMethod.all_in_one, false, [q17], []⟩

/-- A form over `lockedSurvey` for authenticated user 7. -/
def lockedCtx : FormCtx :=
  ⟨lockedSurvey, true, 7, ['u'], 13, []⟩

/-- A pre-existing Response of user 7 to `lockedSurvey`. -/
def respW : Response :=
  ⟨10, 4, some 7, ['o'], 99, []⟩

/-- A store holding `respW` and one of its Answers. -/
def stW : DbState :=
  ⟨[respW], [⟨17, 42, some 10, ['x']⟩]⟩

/-- A radio answer group with one declared choice. -/
def agRadio : AnswerGroup :=
  ⟨5, AGType.radio, [(['a'], ['A'])], [], [], []⟩

/-- A dropdown answer group with one declared choice. -/
def agSelect : AnswerGroup :=
  ⟨6, AGType.select, [(['a'], ['A'])], [], [], []⟩

/-- A question owning only `agRadio`. -/
def qRadio : Question :=
  ⟨9, [], true, none, none, [agRadio]⟩

/-- A stored-answers dict for question 9: answer group 3 holds a stored
short-text answer. -/
def qaMapW : List (Nat × AnswerView) :=
  [(3, ⟨AGType.short_text, ['o', 'l', 'd']⟩)]

/-- Resubmission data containing the key `question_9`. -/
def dataW : List (List Char × List Char) :=
  [(questionKey 9, ['n', 'e', 'w'])]

/-! Helper lemmas about the string primitives. -/

theorem splitOnChar_ne_nil (sep : Char) (l : List Char) : splitOnChar sep l ≠ [] := by
  induction l with
  | nil => simp [splitOnChar]
  | cons c rest ih =>
    simp only [splitOnChar]
    split
    · simp
    · cases h : splitOnChar sep rest with
      | nil => exact absurd h ih
      | cons hd tl => simp [h]

theorem splitOnChar_sepfree {sep : Char} {x : List Char} (hx : sep ∉ x) :
    splitOnChar sep x = [x] := by
  induction x with
  | nil => rfl
  | cons c rest ih =>
    have hc : c ≠ sep := fun h => hx (h ▸ List.mem_cons_self c rest)
    have hrest : sep ∉ rest := fun h => hx (List.mem_cons_of_mem c h)
    simp only [splitOnChar, if_neg hc, ih hrest]

theorem splitOnChar_append_sep {sep : Char} {x l : List Char} (hx : sep ∉ x) :
    splitOnChar sep (x ++ sep :: l) = x :: splitOnChar sep l := by
  induction x with
  | nil => simp [splitOnChar]
  | cons c rest ih =>
    have hc : c ≠ sep := fun h => hx (h ▸ List.mem_cons_self c rest)
    have hrest : sep ∉ rest := fun h => hx (List.mem_cons_of_mem c h)
    simp only [List.cons_append, splitOnChar, if_neg hc]
    rw [show rest.append (sep :: l) = rest ++ sep :: l from rfl, ih hrest]

theorem splitOnChar_joinWith {sep : Char} {xs : List (List Char)}
    (h : ∀ x ∈ xs, sep ∉ x) (hne : xs ≠ []) :
    splitOnChar sep (joinWith sep xs) = xs := by
  induction xs with
  | nil => exact absurd rfl hne
  | cons x rest ih =>
    cases rest with
    | nil =>
      simpa [joinWith] using splitOnChar_sepfree (h x (List.mem_cons_self x []))
    | cons y rest' =>
      have hx : sep ∉ x := h x (List.mem_cons_self x _)
      have hrest : ∀ z ∈ y :: rest', sep ∉ z := fun z hz => h z (List.mem_cons_of_mem x hz)
      simp only [joinWith, splitOnChar_append_sep hx, ih hrest (by simp)]

theorem pyStrip_sandwich {a b : Char} {mid : List Char}
    (ha : isPySpace a = false) (hb : isPySpace b = false) :
    pyStrip (a :: (mid ++ [b])) = a :: (mid ++ [b]) := by
  have h1 : (a :: (mid ++ [b])).dropWhile isPySpace = a :: (mid ++ [b]) := by
    simp [List.dropWhile, ha]
  have h2 : (a :: (mid ++ [b])).reverse = b :: (mid.reverse ++ [a]) := by
    simp
  have h3 : (b :: (mid.reverse ++ [a])).dropWhile isPySpace = b :: (mid.reverse ++ [a]) := by
    simp [List.dropWhile, hb]
  unfold pyStrip
  rw [h1, h2, h3]
  simp

theorem mapMOpt_eq_map {α β : Type} (f : α → Option β) (g : α → β) :
    ∀ (l : List α), (∀ x ∈ l, f x = some (g x)) → mapMOpt f l = some (l.map g) := by
  intro l
  induction l with
  | nil => intro _; rfl
  | cons x xs ih =>
    intro h
    have hx : f x = some (g x) := h x (List.mem_cons_self x xs)
    have hxs : mapMOpt f xs = some (xs.map g) :=
      ih (fun z hz => h z (List.mem_cons_of_mem x hz))
    simp [mapMOpt, hx, hxs]

theorem isPrefixOf_append_self (x y : List Char) : x.isPrefixOf (x ++ y) = true := by
  induction x with
  | nil => simp [List.isPrefixOf]
  | cons c cs ih => simp [List.isPrefixOf, ih]

/-! Helper lemmas about the decimal rendering `natRepr` and its parse. -/

theorem digitChar_isDigit (d : Nat) : (digitChar d).isDigit = true := by
  match d with
  | 0 | 1 | 2 | 3 | 4 | 5 | 6 | 7 | 8 => decide
  | n + 9 => exact (rfl : ('9').isDigit = true)

theorem digitChar_val (d : Nat) (h : d < 10) : (digitChar d).toNat - 48 = d := by
  match d with
  | 0 | 1 | 2 | 3 | 4 | 5 | 6 | 7 | 8 | 9 => decide
  | n + 10 => omega

theorem natReprAux_zero (fuel : Nat) (acc : List Char) : natReprAux fuel 0 acc = acc := by
  cases fuel with
  | zero => rfl
  | succ f => rfl

theorem natReprAux_acc : ∀ (fuel n : Nat) (acc : List Char),
    natReprAux fuel n acc = natReprAux fuel n [] ++ acc := by
  intro fuel
  induction fuel with
  | zero => intro n acc; simp [natReprAux]
  | succ f ih =>
    intro n acc
    match n with
    | 0 => simp [natReprAux]
    | m + 1 =>
      simp only [natReprAux]
      rw [ih ((m + 1) / 10) (digitChar ((m + 1) % 10) :: acc),
          ih ((m + 1) / 10) [digitChar ((m + 1) % 10)]]
      simp

theorem natReprAux_digits : ∀ (fuel n : Nat), ∀ c ∈ natReprAux fuel n [], c.isDigit = true := by
  intro fuel
  induction fuel with
  | zero => intro n c hc; simp [natReprAux] at hc
  | succ f ih =>
    intro n c hc
    match n with
    | 0 => simp [natReprAux] at hc
    | m + 1 =>
      rw [show natReprAux (f + 1) (m + 1) [] =
            natReprAux f ((m + 1) / 10) [digitChar ((m + 1) % 10)] from rfl,
          natReprAux_acc] at hc
      rcases List.mem_append.mp hc with h | h
      · exact ih _ c h
      · rw [List.mem_singleton.mp h]; exact digitChar_isDigit _

theorem natReprAux_ne_nil (fuel n : Nat) (hn : n ≠ 0) (hf : fuel ≠ 0) :
    natReprAux fuel n [] ≠ [] := by
  match fuel, n with
  | 0, _ => exact absurd rfl hf
  | f + 1, 0 => exact absurd rfl hn
  | f + 1, m + 1 =>
    rw [show natReprAux (f + 1) (m + 1) [] =
          natReprAux f ((m + 1) / 10) [digitChar ((m + 1) % 10)] from rfl,
        natReprAux_acc]
    simp

theorem natReprAux_foldl : ∀ (fuel n : Nat), n ≠ 0 → n ≤ fuel → ∀ (a : Nat),
    (natReprAux fuel n []).foldl (fun x c => 10 * x + (c.toNat - 48)) a =
      a * 10 ^ (natReprAux fuel n []).length + n := by
  intro fuel
  induction fuel with
  | zero =>
    intro n hn hle
    exact absurd (Nat.le_zero.mp hle) hn
  | succ f ih =>
    intro n hn hle a
    match n, hn with
    | 0, h => exact absurd rfl h
    | m + 1, _ =>
      have hsplit : natReprAux (f + 1) (m + 1) [] =
          natReprAux f ((m + 1) / 10) [] ++ [digitChar ((m + 1) % 10)] := by
        rw [show natReprAux (f + 1) (m + 1) [] =
              natReprAux f ((m + 1) / 10) [digitChar ((m + 1) % 10)] from rfl,
            natReprAux_acc]
      have hdig : (digitChar ((m + 1) % 10)).toNat - 48 = (m + 1) % 10 :=
        digitChar_val _ (Nat.mod_lt _ (by decide))
      rw [hsplit]
      by_cases hz : (m + 1) / 10 = 0
      · have hm : (m + 1) % 10 = m + 1 := by omega
        rw [hz]
        simp only [natReprAux_zero, List.nil_append, List.foldl_cons, List.foldl_nil,
          List.length_cons, List.length_nil]
        rw [hdig, hm]
        ring
      · have hle' : (m + 1) / 10 ≤ f := by omega
        rw [List.foldl_append, List.length_append]
        simp only [List.foldl_cons, List.foldl_nil, List.length_cons, List.length_nil]
        rw [ih _ hz hle' a, hdig]
        rw [Nat.pow_succ]
        have hmul : a * (10 ^ (natReprAux f ((m + 1) / 10) []).length * 10)
            = a * 10 ^ (natReprAux f ((m + 1) / 10) []).length * 10 := by ring
        rw [hmul]
        generalize a * 10 ^ (natReprAux f ((m + 1) / 10) []).length = t
        omega

theorem parseNat_natRepr (n : Nat) : parseNat (natRepr n) = some n := by
  by_cases h : n = 0
  · subst h; decide
  · unfold natRepr
    rw [if_neg h]
    unfold parseNat
    rw [if_pos ⟨natReprAux_ne_nil n n h h, List.all_eq_true.mpr (natReprAux_digits n n)⟩]
    rw [natReprAux_foldl n n h (Nat.le_refl n) 0]
    simp

theorem underscore_not_mem_natRepr (n : Nat) : '_' ∉ natRepr n := by
  intro hmem
  have hdig : ('_').isDigit = true := by
    unfold natRepr at hmem
    split at hmem
    · simp at hmem
    · exact natReprAux_digits n n _ hmem
  exact absurd hdig (by decide)

theorem parseFieldName_fieldName (q g : Nat) : parseFieldName (fieldName q g) = some (q, g) := by
  have hsplit : splitOnChar '_' (fieldName q g) = ["question".toList, natRepr q, natRepr g] := by
    have hshape : fieldName q g
        = "question".toList ++ '_' :: (natRepr q ++ '_' :: natRepr g) := by
      show "question_".toList ++ natRepr q ++ '_' :: natRepr g = _
      simp [List.append_assoc]
    rw [hshape,
      splitOnChar_append_sep (by decide),
      splitOnChar_append_sep (underscore_not_mem_natRepr q),
      splitOnChar_sepfree (underscore_not_mem_natRepr g)]
  unfold parseFieldName
  rw [hsplit]
  simp [parseNat_natRepr]

/-! Lemmas about the multi-select encoding. -/

theorem joinWith_quoteTok_shape (t : List Char) (ts : List (List Char)) :
    ∃ mid, joinWith choicesSeparator ((t :: ts).map quoteTok) = squote :: (mid ++ [squote]) := by
  induction ts generalizing t with
  | nil => exact ⟨t, by simp [joinWith, quoteTok]⟩
  | cons u us ih =>
    obtain ⟨mid, hmid⟩ := ih u
    refine ⟨t ++ [squote] ++ choicesSeparator :: squote :: mid, ?_⟩
    have hstep : joinWith choicesSeparator ((t :: u :: us).map quoteTok)
        = quoteTok t ++ choicesSeparator :: joinWith choicesSeparator ((u :: us).map quoteTok) := by
      simp [joinWith]
    rw [hstep, hmid]
    simp [quoteTok]

theorem splitOnChar_quoteTok {x : List Char} (hx : squote ∉ x) :
    splitOnChar squote (quoteTok x) = [[], x, []] := by
  have h1 : splitOnChar squote (squote :: (x ++ [squote])) =
      [] :: splitOnChar squote (x ++ [squote]) := by
    simp [splitOnChar]
  have h2 : splitOnChar squote (x ++ [squote]) = x :: splitOnChar squote [] :=
    splitOnChar_append_sep hx
  unfold quoteTok
  rw [h1, h2]
  rfl

theorem decodeMulti_unbracketed {body : List Char} (hb : ¬('[' ∈ body ∧ ']' ∈ body)) :
    decodeMulti body = some [slugify body] := by
  have hne : body ≠ ['[', ']'] := by
    intro h
    subst h
    exact hb (by decide)
  unfold decodeMulti
  rw [if_neg hne, if_neg hb]

theorem dropLast_append_single {α : Type} (l : List α) (a : α) :
    (l ++ [a]).dropLast = l := by
  induction l with
  | nil => rfl
  | cons x xs ih =>
    cases hxs : xs ++ [a] with
    | nil => exact absurd (congrArg List.length hxs) (by simp)
    | cons y ys =>
      show (x :: (xs ++ [a])).dropLast = x :: xs
      rw [hxs, List.dropLast_cons₂, ← hxs, ih]

theorem mapMOpt_quoteTok {l : List (List Char)} (h : ∀ t ∈ l, squote ∉ t) :
    mapMOpt (fun uc => ((splitOnChar squote uc).get? 1).map slugify) (l.map quoteTok)
      = some (l.map slugify) := by
  induction l with
  | nil => rfl
  | cons t ts ih =>
    have ht : squote ∉ t := h t (List.mem_cons_self t ts)
    have hts := ih (fun z hz => h z (List.mem_cons_of_mem t hz))
    have hf : ((splitOnChar squote (quoteTok t)).get? 1).map slugify = some (slugify t) := by
      rw [splitOnChar_quoteTok ht]
      rfl
    simp only [List.map_cons, mapMOpt, hf, hts]

/-- C1: counterexample.  The claim quantifies the round-trip over
*every* set of choice tokens, but it fails as soon as a token contains
the separator character: encoding the one-token set `{"a,b"}` and
decoding it back yields the two-element set `{"a", ""}`, which does not
contain the slug-cased form `"ab"` of the token. -/
theorem multiSelect_roundtrip_counterexample :
    decodeMulti (encodeMulti [['a', ',', 'b']]) = some [['a'], []] ∧
    [['a', ',', 'b']].map slugify = [['a', 'b']] ∧
    (['a', 'b'] : List Char) ∉ [(['a'] : List Char), []] := by
  refine ⟨by decide, by decide, by decide⟩

/-- C1 (amended): the multi-select round-trip restricted to tokens free
of the separator and quote characters — encoding a set of such tokens
and decoding it via `get_question_initial` yields the same set with
each token slug-cased; decoding `"[]"` yields the empty set; and
decoding any unbracketed body yields the one-element set of its
slug-cased form. -/
theorem multiSelect_roundtrip (tokens : List (List Char))
    (h : ∀ t ∈ tokens, choicesSeparator ∉ t ∧ squote ∉ t) :
    decodeMulti (encodeMulti tokens) = some (tokens.map slugify) ∧
    decodeMulti ['[', ']'] = some [] ∧
    (∀ body : List Char, ¬('[' ∈ body ∧ ']' ∈ body) →
      decodeMulti body = some [slugify body]) := by
  refine ⟨?_, by decide, fun body hb => decodeMulti_unbracketed hb⟩
  cases tokens with
  | nil => decide
  | cons t ts =>
    obtain ⟨mid, hmid⟩ := joinWith_quoteTok_shape t ts
    have hinner : encodeMulti (t :: ts) = '[' :: ((squote :: (mid ++ [squote])) ++ [']']) := by
      unfold encodeMulti
      rw [hmid]
      simp [List.cons_append]
    have hne : encodeMulti (t :: ts) ≠ ['[', ']'] := by
      rw [hinner]
      intro hcontra
      have := congrArg List.length hcontra
      simp at this
    have hmem : '[' ∈ encodeMulti (t :: ts) ∧ ']' ∈ encodeMulti (t :: ts) := by
      rw [hinner]
      exact ⟨List.mem_cons_self _ _, List.mem_cons_of_mem _ (by simp)⟩
    have hdrop : (((encodeMulti (t :: ts)).drop 1)).dropLast = squote :: (mid ++ [squote]) := by
      rw [hinner, List.drop_one, List.tail_cons, dropLast_append_single]
    unfold decodeMulti
    rw [if_neg hne, if_pos hmem, hdrop,
      pyStrip_sandwich (by decide) (by decide), ← hmid,
      splitOnChar_joinWith ?_ (by simp)]
    · exact mapMOpt_quoteTok (fun z hz => (h z hz).2)
    · intro x hx
      obtain ⟨u, hu, rfl⟩ := List.mem_map.mp hx
      intro hsep
      rcases List.mem_cons.mp hsep with heq | hsep'
      · exact absurd heq (by decide)
      · rcases List.mem_append.mp hsep' with hin | hlast
        · exact (h u hu).1 hin
        · exact absurd (List.mem_singleton.mp hlast) (by decide)

/-- C1 witness: the round-trip at the concrete token set
`{"red", "blue"}`. -/
theorem multiSelect_roundtrip_witness :
    decodeMulti (encodeMulti [['r', 'e', 'd'], ['b', 'l', 'u', 'e']])
      = some [['r', 'e', 'd'], ['b', 'l', 'u', 'e']] := by
  have h := (multiSelect_roundtrip [['r', 'e', 'd'], ['b', 'l', 'u', 'e']] (by decide)).1
  rw [h]
  decide

/-- C2: the field identifier synthesized by `add_question` for question
`q` and answer group `g` is parsed back by `save` into exactly `(q, g)`,
and a validated field with that name contributes exactly one Answer to
the save loop, referencing question `q` and answer group `g` with body
equal to the raw submitted value. -/
theorem fieldName_save_roundtrip (db : Db) (stored : List Answer) (respId : Nat)
    (q g : Nat) (v : List Char) (rest : List (List Char × List Char))
    (qu : Question) (ag : AnswerGroup)
    (hq : db.getQuestion q = some qu) (hg : db.getAnswerGroup g = some ag)
    (himg : ag.type = AGType.select_image → ':' ∈ v) :
    parseFieldName (fieldName q g) = some (q, g) ∧
    saveLoop db stored respId ((fieldName q g, v) :: rest) =
      (saveLoop db stored respId rest).map
        (fun l => (⟨q, g, some respId, v⟩ : Answer) :: l) := by
  refine ⟨parseFieldName_fieldName q g, ?_⟩
  have hstart : startsWithQuestion (fieldName q g) = true := by
    unfold startsWithQuestion fieldName
    rw [List.append_assoc]
    exact isPrefixOf_append_self _ _
  have himg' : ¬(ag.type = AGType.select_image ∧ ':' ∉ v) := by
    rintro ⟨h1, h2⟩
    exact h2 (himg h1)
  have hproc : processField db stored respId (fieldName q g) v =
      some (some (⟨q, g, some respId, v⟩ : Answer)) := by
    cases hfind : findStoredAnswer stored q g with
    | none =>
      simp [processField, hstart, parseFieldName_fieldName, hq, hg, hfind, himg']
    | some a =>
      have hp := List.find?_some hfind
      rw [Bool.and_eq_true, beq_iff_eq, beq_iff_eq] at hp
      cases a
      simp [processField, hstart, parseFieldName_fieldName, hq, hg, hfind, himg'] at hp ⊢
      exact hp
  show (match processField db stored respId (fieldName q g) v with
    | none => none
    | some none => saveLoop db stored respId rest
    | some (some a) => (saveLoop db stored respId rest).map (fun l => a :: l)) = _
  rw [hproc]

/-- C2 witness: submitting a field named `question_17_42` with value
`"hi"` yields exactly one Answer referencing question 17 and answer
group 42 with that body. -/
theorem fieldName_save_roundtrip_witness :
    saveLoop dbW [] 5 [(fieldName 17 42, ['h', 'i'])]
      = some [⟨17, 42, some 5, ['h', 'i']⟩] := by
  have h := (fieldName_save_roundtrip dbW [] 5 17 42 ['h', 'i'] [] q17 agShortText
    (by decide) (by decide) (by decide)).2
  rw [h]
  decide

/-- C3: when the survey's answers are not editable and a pre-existing
Response exists for the user, `save` returns the `None` no-op result
and leaves the store — the Response and all of its Answers — exactly as
it was, whatever the submitted field values are. -/
theorem save_locked_noop (ctx : FormCtx) (db : Db) (freshId : Nat)
    (cleaned : List (List Char × List Char)) (st : DbState) (r : Response)
    (hlock : ctx.survey.editable_answers = false)
    (hpre : getPreexistingResponse ctx.authenticated ctx.userId ctx.survey.id st.responses
      = some r) :
    formSave ctx db freshId cleaned st = some (none, st) := by
  unfold formSave
  rw [hpre, if_pos ⟨hlock, by simp⟩]

/-- C3 witness: re-saving different values against `lockedSurvey` with
`respW` already stored returns the no-op result and the untouched
store. -/
theorem save_locked_noop_witness :
    formSave lockedCtx dbW 11 [(fieldName 17 42, ['y'])] stW = some (none, stW) :=
  save_locked_noop lockedCtx dbW 11 [(fieldName 17 42, ['y'])] stW respW (by decide) (by decide)

/-- C4: the seeded shuffle is a pure function of the input sequence and
the seed — because `random.seed` discards the prior generator state,
two shuffles of the same list under the same seed agree no matter what
else was drawn from the random stream in between (`g1`, `g2` are the
arbitrary generator states the two calls start from). -/
theorem shuffle_deterministic (g1 g2 : Int) (seed : Int) (l : List Question) :
    (seededShuffle g1 seed l).1 = (seededShuffle g2 seed l).1 := rfl

theorem insertLe_ne_nil {α : Type} (le : α → α → Bool) (a : α) (l : List α) :
    insertLe le a l ≠ [] := by
  cases l with
  | nil => simp [insertLe]
  | cons b bs =>
    simp only [insertLe]
    split <;> simp

theorem sortLe_eq_nil_iff {α : Type} (le : α → α → Bool) (l : List α) :
    sortLe le l = [] ↔ l = [] := by
  cases l with
  | nil => simp [sortLe]
  | cons a as =>
    simp only [sortLe]
    constructor
    · intro h
      exact absurd h (insertLe_ne_nil le a (sortLe le as))
    · intro h
      cases h

/-- C5: `steps_count` equals the number of non-empty categories, plus
one exactly when an uncategorized question exists, in `BY_CATEGORY`
mode; and the total number of the survey's questions in `BY_QUESTION`
mode. -/
theorem stepsCount_spec (s : Survey) :
    (s.display_method = DisplayMethod.by_category →
      stepsCount s = (nonEmptyCategories s).length +
        (if ∃ q ∈ s.questions, q.category = none then 1 else 0)) ∧
    (s.display_method = DisplayMethod.by_question →
      stepsCount s = s.questions.length) := by
  constructor
  · intro hmode
    unfold stepsCount
    rw [if_pos hmode]
    have hiff : (qsWithNoCat s ≠ []) ↔ ∃ q ∈ s.questions, q.category = none := by
      unfold qsWithNoCat
      rw [Ne, sortLe_eq_nil_iff, List.filter_eq_nil_iff]
      push_neg
      simp
    congr 1
    exact if_congr hiff rfl rfl
  · intro hmode
    unfold stepsCount
    rw [if_neg (by rw [hmode]; intro h; cases h)]

/-- C5 witness: `BY_CATEGORY` with three non-empty categories gives 4
with an uncategorized question present and 3 without; `BY_QUESTION`
with five questions gives 5. -/
theorem stepsCount_spec_witness :
    stepsCount surveyCatUncat = 4 ∧ stepsCount surveyCatOnly = 3 ∧
      stepsCount surveyFiveQ = 5 := by
  refine ⟨?_, ?_, ?_⟩
  · rw [(stepsCount_spec surveyCatUncat).1 rfl]
    decide
  · rw [(stepsCount_spec surveyCatOnly).1 rfl]
    decide
  · rw [(stepsCount_spec surveyFiveQ).2 rfl]
    decide

/-- C6: `has_next_step()` returns `True` exactly when the display mode
is not `ALL_IN_ONE` and the (integer) step satisfies
`step < steps_count - 1`; in `ALL_IN_ONE` mode it returns `False`
whatever the step is. -/
theorem hasNextStep_spec (s : Survey) (step : Option Int) :
    (hasNextStep s step = some true ↔
      (isAllInOnePage s = false ∧
        ∃ st, step = some st ∧ st < (stepsCount s : Int) - 1)) ∧
    (isAllInOnePage s = true → hasNextStep s step = some false) := by
  constructor
  · unfold hasNextStep
    by_cases hall : isAllInOnePage s = true
    · simp [hall]
    · rw [Bool.not_eq_true] at hall
      cases step with
      | none => simp [hall]
      | some st =>
        by_cases hlt : st < (stepsCount s : Int) - 1
        · simp [hall, hlt]
        · simp [hall, hlt]
  · intro hall
    unfold hasNextStep
    rw [if_pos hall]

/-- C6 witness: a `BY_QUESTION` survey with five questions at step 2 has
a next step; an `ALL_IN_ONE` survey at step 99 does not. -/
theorem hasNextStep_spec_witness :
    hasNextStep surveyFiveQ (some 2) = some true ∧
      hasNextStep surveyAllInOne (some 99) = some false := by
  constructor
  · exact (hasNextStep_spec surveyFiveQ (some 2)).1.mpr ⟨by decide, 2, rfl, by decide⟩
  · exact (hasNextStep_spec surveyAllInOne (some 99)).2 (by decide)

theorem filterCongr {α : Type} {p q : α → Bool} :
    ∀ l : List α, (∀ a ∈ l, p a = q a) → l.filter p = l.filter q := by
  intro l
  induction l with
  | nil => intro _; rfl
  | cons a as ih =>
    intro h
    have ha := h a (List.mem_cons_self a as)
    have has := ih (fun z hz => h z (List.mem_cons_of_mem a hz))
    simp only [List.filter_cons, ha, has]

theorem enumFromL_filter_gt {α : Type} :
    ∀ (l : List α) (n k : Nat), k < n →
      (enumFromL n l).filter (fun p => p.1 == k) = [] := by
  intro l
  induction l with
  | nil => intro n k _; rfl
  | cons a as ih =>
    intro n k hk
    simp only [enumFromL, List.filter_cons]
    rw [if_neg (by simp; omega)]
    exact ih (n + 1) k (Nat.lt_succ_of_lt hk)

theorem enumFromL_filter_eq {α : Type} :
    ∀ (l : List α) (n k : Nat), n ≤ k → ∀ qq : α, l.get? (k - n) = some qq →
      (enumFromL n l).filter (fun p => p.1 == k) = [(k, qq)] := by
  intro l
  induction l with
  | nil =>
    intro n k _ qq hget
    simp [List.get?] at hget
  | cons a as ih =>
    intro n k hn qq hget
    by_cases heq : n = k
    · subst heq
      rw [Nat.sub_self] at hget
      simp only [List.get?] at hget
      injection hget with hqq
      subst hqq
      simp only [enumFromL, List.filter_cons]
      rw [if_pos (by simp), enumFromL_filter_gt as (n + 1) n (Nat.lt_succ_self n)]
    · have hlt : n < k := Nat.lt_of_le_of_ne hn heq
      rw [show k - n = (k - (n + 1)) + 1 from by omega] at hget
      simp only [List.get?] at hget
      simp only [enumFromL, List.filter_cons]
      rw [if_neg (by simp; omega)]
      exact ih (n + 1) k hlt qq hget

/-- C7: in `BY_QUESTION` mode with a non-null integer step that indexes
into the full (possibly shuffled) question list, `add_questions` gives
form fields to exactly the question at index `step` of that list and no
others. -/
theorem byQuestion_step_selection (g seed : Int) (s : Survey) (st : Int) (qq : Question)
    (hmode : s.display_method = DisplayMethod.by_question)
    (hst : 0 ≤ st)
    (hget : (fullQuestionList g seed s).get? st.toNat = some qq) :
    addQuestionsSelected g seed s (some st) = some [qq] := by
  unfold addQuestionsSelected
  rw [if_neg (by rintro ⟨h1, _⟩; rw [hmode] at h1; cases h1)]
  have hpred : ∀ p : Nat × Question, p ∈ enumFromL 0 (fullQuestionList g seed s) →
      (!(decide (s.display_method = DisplayMethod.by_question) &&
        (match some st with
         | none => false
         | some st' => decide ((p.1 : Int) ≠ st')))) = (p.1 == st.toNat) := by
    intro p _
    have hiff : ((p.1 : Int) = st) ↔ (p.1 = st.toNat) := by omega
    rw [hmode]
    simp only [decide_eq_true_eq, Bool.not_eq_true']
    rw [Bool.eq_iff_iff]
    simp [hiff]
  have heq := filterCongr (enumFromL 0 (fullQuestionList g seed s)) hpred
  simp only [heq, enumFromL_filter_eq _ 0 st.toNat (Nat.zero_le _) qq (by simpa using hget)]
  rfl

/-- C7 witness: with five questions and `step = 2`, exactly the question
at index 2 of the full list is selected. -/
theorem byQuestion_step_selection_witness :
    addQuestionsSelected 0 13 surveyFiveQ (some 2) = some [mkPlainQ 3 none] :=
  byQuestion_step_selection 0 13 surveyFiveQ 2 (mkPlainQ 3 none) rfl (by decide) (by decide)

/-- C8: counterexample.  The claim includes radio groups among those
that get the empty "please choose" option prepended, but
`get_question_choices` prepends it only for `SELECT` and
`SELECT_IMAGE`: for the radio group `agRadio` the choice list used for
the field is the declared list unchanged, not the prepended one. -/
theorem choice_prepend_counterexample :
    assocLookup (getQuestionChoices qRadio) agRadio.id = some [(['a'], ['A'])] ∧
    some [(['a'], ['A'])] ≠ some (emptyOption :: agRadio.choices) := by
  refine ⟨by decide, by decide⟩

/-- C8 (amended): the empty "please choose" option is prepended to the
declared choice list exactly for single-select and select-with-image
groups; a radio group's field uses the declared choice list
unchanged. -/
theorem choice_prepend_amended (ag : AnswerGroup) :
    ((ag.type = AGType.select ∨ ag.type = AGType.select_image) →
      choicesForGroup ag = some (emptyOption :: ag.choices)) ∧
    (ag.type = AGType.radio →
      choicesForGroup ag = if ag.choices ≠ [] then some ag.choices else none) := by
  constructor
  · intro h
    rcases h with h | h <;> simp [choicesForGroup, h]
  · intro h
    simp [choicesForGroup, h]

/-- C8 witness: for the dropdown group `agSelect` the empty option is
prepended; for the radio group `agRadio` the declared list is used
unchanged. -/
theorem choice_prepend_amended_witness :
    choicesForGroup agSelect = some (emptyOption :: agSelect.choices) ∧
    choicesForGroup agRadio = some agRadio.choices := by
  constructor
  · exact (choice_prepend_amended agSelect).1 (Or.inl rfl)
  · rw [(choice_prepend_amended agRadio).2 rfl]
    decide

/-- C9: whenever the caller supplies truthy resubmission data, the
initial value `get_question_initial` produces for a question is taken
entirely from `data.get("question_<pk>")`, independently of (and fully
replacing) whatever the stored answers for that question hold. -/
theorem resubmission_precedence {β : Type} (qaMap : List (Nat × AnswerView))
    (d : List (List Char × β)) (qpk : Nat) (r : QInitial β)
    (hne : d ≠ [])
    (hres : getQuestionInitial qaMap (some d) qpk = some r) :
    r = QInitial.fromData (assocLookup d (questionKey qpk)) := by
  unfold getQuestionInitial at hres
  cases hbuild : buildInitial qaMap with
  | none =>
    rw [hbuild] at hres
    cases hres
  | some dbInit =>
    rw [hbuild] at hres
    have hie : d.isEmpty = false := by
      cases d with
      | nil => exact absurd rfl hne
      | cons x xs => rfl
    simp only [hie, Bool.false_eq_true, if_false] at hres
    exact (Option.some.inj hres).symm

/-- C9 witness: with a stored answer present for the question and
resubmission data containing `question_9`, the initial value comes
entirely from the data. -/
theorem resubmission_precedence_witness :
    QInitial.fromData (β := List Char) (some ['n', 'e', 'w'])
      = QInitial.fromData (assocLookup dataW (questionKey 9)) :=
  resubmission_precedence qaMapW dataW 9 _ (by decide) (by decide)

/-- C10 (implicit): `has_next_step()` is not total — when the display
mode is not `ALL_IN_ONE` and the step is null, the comparison
`self.step < self.steps_count - 1` raises instead of returning a
boolean; the call returns a value exactly when the step is an integer
or the mode is `ALL_IN_ONE`. -/
theorem hasNextStep_nonTotal (s : Survey) (step : Option Int) :
    (isAllInOnePage s = false → step = none → hasNextStep s step = none) ∧
    (∀ st, step = some st → ∃ b, hasNextStep s step = some b) ∧
    (isAllInOnePage s = true → ∃ b, hasNextStep s step = some b) := by
  refine ⟨?_, ?_, ?_⟩
  · intro hall hstep
    subst hstep
    simp [hasNextStep, hall]
  · intro st hstep
    subst hstep
    by_cases hall : isAllInOnePage s = true
    · exact ⟨false, by simp [hasNextStep, hall]⟩
    · rw [Bool.not_eq_true] at hall
      by_cases hlt : st < (stepsCount s : Int) - 1
      · exact ⟨true, by simp [hasNextStep, hall, hlt]⟩
      · exact ⟨false, by simp [hasNextStep, hall, hlt]⟩
  · intro hall
    exact ⟨false, by simp [hasNextStep, hall]⟩

/-- C10 witness: on the five-question `BY_QUESTION` survey with a null
step, `has_next_step()` raises (returns no boolean). -/
theorem hasNextStep_nonTotal_witness :
    hasNextStep surveyFiveQ none = none :=
  (hasNextStep_nonTotal surveyFiveQ none).1 (by decide) rfl

end SurveyApp
